import Mathlib

/-!
Shallow embedding of the vanilla-JS form-validation controller
(src/main.js, class Validate) and proofs about its behaviour.

Modelling conventions:
- a DOM form control is a `Field` record carrying its immutable
  characteristics (control kind, value, title, the data-custom-rule
  attribute, the native constraint-validation flags and native message,
  presence of the wrapper / error-message-slot bindings) together with
  its mutable state (the custom validity message set via
  setCustomValidity, the wrapper error class, the message-slot text);
- a form is the list of its controls in document order;
- operations that can throw in JS (destructuring the undefined returned
  by #getElms when the wrapper or message slot is missing, calling
  .focus() on the undefined returned by Array.find) are modelled with
  Except JsError;
- the invalid-event listener (#handleInvalid) is modelled as firing
  whenever element- or form-level checkValidity encounters an invalid
  control that the controller registered a listener on.
-/

namespace VanillaValidation

/-- Kind of a form-associated control. The controller registers only
input, select and textarea controls (the instanceof filter in the
constructor); `other` stands for any further form-associated control
(e.g. a form-associated custom element) that may still participate in
form-level constraint validation. -/
inductive ControlKind
  | input
  | select
  | textarea
  | other
deriving DecidableEq, Repr

/-- A JS runtime fault. The only one this code can produce is a
TypeError from dereferencing undefined. -/
inductive JsError
  | typeError
deriving DecidableEq, Repr

/-- The native constraint-validation flags of a control, as exposed by
its ValidityState (customError excluded: that is derived from the
custom message). They are a function of the control's value and
constraint attributes, none of which the controller ever changes, so
they are constant components of the model. -/
structure NativeValidity where
  valueMissing : Bool
  typeMismatch : Bool
  patternMismatch : Bool
  otherInvalid : Bool
deriving DecidableEq, Repr

/-- A form control. -/
structure Field where
  kind : ControlKind
  /-- the DOM type property, e.g. "radio", "checkbox", "text" -/
  typeAttr : String
  /-- whether the control is a candidate for constraint validation -/
  willValidate : Bool
  value : String
  title : String
  /-- the data-custom-rule attribute, none when absent -/
  customRuleAttr : Option String
  native : NativeValidity
  /-- the validationMessage the browser reports for the native
  violation when no custom error is set -/
  nativeMsg : String
  /-- the message set through setCustomValidity; "" means no custom
  error -/
  customMessage : String
  /-- whether input.closest with the data-wrapper selector finds an
  ancestor -/
  hasWrapper : Bool
  /-- whether that wrapper contains an errorMessage element -/
  hasSlot : Bool
  /-- whether the wrapper currently carries the is-error class -/
  wrapperError : Bool
  /-- the textContent of the error-message slot -/
  slotText : String
deriving DecidableEq, Repr

/-- The components of a Field that no controller operation ever
changes. -/
structure FieldCore where
  kind : ControlKind
  typeAttr : String
  willValidate : Bool
  value : String
  title : String
  customRuleAttr : Option String
  native : NativeValidity
  nativeMsg : String
  hasWrapper : Bool
  hasSlot : Bool
deriving DecidableEq, Repr

def Field.core (f : Field) : FieldCore :=
  ⟨f.kind, f.typeAttr, f.willValidate, f.value, f.title, f.customRuleAttr,
    f.native, f.nativeMsg, f.hasWrapper, f.hasSlot⟩

/-- validity.valid of a control: no native violation and no custom
error. -/
def nativeValid (n : NativeValidity) : Bool :=
  !n.valueMissing && !n.typeMismatch && !n.patternMismatch && !n.otherInvalid

def validityValid (f : Field) : Bool :=
  nativeValid f.native && (f.customMessage == "")

/-- input.validationMessage: the custom message when one is set,
otherwise the browser's native message. -/
def validationMessage (f : Field) : String :=
  if f.customMessage == "" then f.nativeMsg else f.customMessage

/-- input.setCustomValidity(m). -/
def setCustomValidity (f : Field) (m : String) : Field :=
  { f with customMessage := m }

/-- Whether the field resolves to a wrapper and a message slot. -/
def hasBindings (f : Field) : Bool :=
  f.hasWrapper && f.hasSlot

/-- The source's #getElms: looks up the data-wrapper ancestor and the
errorMessage slot; when either is missing it logs a console.warn and
returns undefined (modelled as none). -/
def getElms (f : Field) : Option Unit :=
  if f.hasWrapper && f.hasSlot then some () else none

/-- The source's #displayErrorState: destructures the result of
  #getElms (throwing a TypeError when that result is undefined), adds
the is-error class to the wrapper and writes message, falling back on
input.validationMessage when message is the empty string, into the
slot. -/
def displayErrorState (f : Field) (message : String) : Except JsError Field :=
  match getElms f with
  | none => Except.error JsError.typeError
  | some _ =>
      Except.ok { f with
        wrapperError := true,
        slotText := if message == "" then validationMessage f else message }

/-- The result state of #displayErrorState when the bindings exist. -/
def displayErrorStatePure (f : Field) (message : String) : Field :=
  { f with
    wrapperError := true,
    slotText := if message == "" then validationMessage f else message }

/-- The source's #resetErrorState: destructures the result of
  #getElms (throwing a TypeError when that result is undefined),
removes the is-error class, empties the slot, and clears the custom
validity. -/
def resetErrorState (f : Field) : Except JsError Field :=
  match getElms f with
  | none => Except.error JsError.typeError
  | some _ =>
      Except.ok { f with wrapperError := false, slotText := "", customMessage := "" }

/-- The result state of #resetErrorState when the bindings exist. -/
def resetErrorStatePure (f : Field) : Field :=
  { f with wrapperError := false, slotText := "", customMessage := "" }

/-- The source's #checkCustomValidation: when the data-custom-rule
attribute equals "test", any value other than the literal "0" sets the
custom validity to the field's title, and the value "0" clears it. -/
def checkCustomValidation (f : Field) : Field :=
  if f.customRuleAttr = some "test" then
    if f.value ≠ "0" then setCustomValidity f f.title
    else setCustomValidity f ""
  else f

/-- The generic required-field message the invalid handler installs. -/
def requiredMessage : String := "必須入力項目です。"

/-- The source's #handleInvalid listener: precedence valueMissing,
then typeMismatch, then patternMismatch, then anything else; the first
and third branches install a custom message (the generic required text
and the field's title respectively) before displaying
input.validationMessage. -/
def handleInvalid (f : Field) : Except JsError Field :=
  if f.native.valueMissing then
    displayErrorState (setCustomValidity f requiredMessage)
      (validationMessage (setCustomValidity f requiredMessage))
  else if f.native.typeMismatch then
    displayErrorState f (validationMessage f)
  else if f.native.patternMismatch then
    displayErrorState (setCustomValidity f f.title)
      (validationMessage (setCustomValidity f f.title))
  else
    displayErrorState f (validationMessage f)

/-- The result state of #handleInvalid when the bindings exist. -/
def handleInvalidPure (f : Field) : Field :=
  if f.native.valueMissing then
    displayErrorStatePure (setCustomValidity f requiredMessage)
      (validationMessage (setCustomValidity f requiredMessage))
  else if f.native.typeMismatch then
    displayErrorStatePure f (validationMessage f)
  else if f.native.patternMismatch then
    displayErrorStatePure (setCustomValidity f f.title)
      (validationMessage (setCustomValidity f f.title))
  else
    displayErrorStatePure f (validationMessage f)

/-- Whether the constructor's instanceof filter keeps the control in
  #formElms. -/
def isRegisteredKind (f : Field) : Bool :=
  match f.kind with
  | ControlKind.other => false
  | _ => true

/-- Whether the control is in #customRuleFormElms: registered and
matching the attribute selector for data-custom-rule equal to
"test". -/
def isCustomRuleElm (f : Field) : Bool :=
  isRegisteredKind f && (f.customRuleAttr == some "test")

/-- input.checkValidity() on a control whose invalid listener is
registered: fires the invalid event (running #handleInvalid) exactly
when the control is a validation candidate and invalid. -/
def inputCheckValidity (f : Field) : Except JsError Field :=
  if f.willValidate && !(validityValid f) then handleInvalid f else Except.ok f

/-- The source's #validateTargetInput: reset the error state, apply
the custom rule when the control is in #customRuleFormElms, then run
the element-level native check. -/
def validateTargetInput (f : Field) : Except JsError Field := do
  let f1 ← resetErrorState f
  let f2 := if isCustomRuleElm f then checkCustomValidation f1 else f1
  inputCheckValidity f2

/-- The result state of #validateTargetInput when the bindings
exist. -/
def validateTargetInputPure (f : Field) : Field :=
  if (if isCustomRuleElm f then checkCustomValidation (resetErrorStatePure f)
      else resetErrorStatePure f).willValidate
      && !(validityValid (if isCustomRuleElm f then checkCustomValidation (resetErrorStatePure f)
            else resetErrorStatePure f)) then
    handleInvalidPure (if isCustomRuleElm f then checkCustomValidation (resetErrorStatePure f)
      else resetErrorStatePure f)
  else
    (if isCustomRuleElm f then checkCustomValidation (resetErrorStatePure f)
      else resetErrorStatePure f)

/-- Exception-propagating traversal matching Array.prototype.forEach
over per-element operations that may throw: elements are processed in
order and the first throw aborts the sweep. -/
def mapExcept (g : Field → Except JsError Field) : List Field → Except JsError (List Field)
  | [] => Except.ok []
  | f :: fs => do
    let f' ← g f
    let fs' ← mapExcept g fs
    pure (f' :: fs')

/-- The constructor's #formElms: the form's controls restricted to
input, select and textarea, in document order. -/
def formElms (cs : List Field) : List Field :=
  cs.filter (fun f => isRegisteredKind f)

/-- The constructor's #customRuleFormElms. -/
def customRuleFormElms (cs : List Field) : List Field :=
  (formElms cs).filter (fun f => f.customRuleAttr == some "test")

/-- form.checkValidity()'s boolean result: every validation candidate
among the controls is valid. -/
def formCheckValidityFlag (cs : List Field) : Bool :=
  cs.all (fun f => !f.willValidate || validityValid f)

/-- The invalid events fired by form.checkValidity(): every invalid
validation candidate receives the event; only registered controls have
the #handleInvalid listener attached. -/
def fireInvalidOnForm (cs : List Field) : Except JsError (List Field) :=
  mapExcept
    (fun f =>
      if f.willValidate && !(validityValid f) && isRegisteredKind f then handleInvalid f
      else Except.ok f)
    cs

/-- The source's #checkValidity: run #validateTargetInput over the
custom-rule controls, then form.checkValidity(), whose boolean is
determined by the control states before its invalid events fire. -/
def checkValidityAll (cs : List Field) : Except JsError (List Field × Bool) := do
  let cs1 ← mapExcept (fun f => if isCustomRuleElm f then validateTargetInput f else Except.ok f) cs
  let ok := formCheckValidityFlag cs1
  let cs2 ← fireInvalidOnForm cs1
  Except.ok (cs2, ok)

/-- The observable steps of the submit handler, in execution order. -/
inductive SubmitAction
  | preventDefault
  | resetSweep
  | computeValidity
  | focusInvalid
  | successAlert
deriving DecidableEq, Repr

/-- Outcome of one run of the submit handler. crashed records that a
TypeError escaped the handler; trace lists the steps reached, in
order. -/
structure SubmitResult where
  controls : List Field
  trace : List SubmitAction
  focused : Option Field
  alerted : Bool
  crashed : Bool
deriving DecidableEq, Repr

/-- The source's #handleSubmit: e.preventDefault() first; reset every
registered control; compute validity via #checkValidity; when invalid,
call .focus() on the result of Array.find over #formElms (throwing a
TypeError when that result is undefined); when valid, fire the alert. -/
def handleSubmit (cs : List Field) : SubmitResult :=
  match mapExcept (fun f => if isRegisteredKind f then resetErrorState f else Except.ok f) cs with
  | Except.error _ =>
      { controls := cs, trace := [SubmitAction.preventDefault, SubmitAction.resetSweep],
        focused := none, alerted := false, crashed := true }
  | Except.ok cs1 =>
    match checkValidityAll cs1 with
    | Except.error _ =>
        { controls := cs1,
          trace := [SubmitAction.preventDefault, SubmitAction.resetSweep, SubmitAction.computeValidity],
          focused := none, alerted := false, crashed := true }
    | Except.ok (cs2, ok) =>
      if ok then
        { controls := cs2,
          trace := [SubmitAction.preventDefault, SubmitAction.resetSweep,
            SubmitAction.computeValidity, SubmitAction.successAlert],
          focused := none, alerted := true, crashed := false }
      else
        match (formElms cs2).find? (fun f => !(validityValid f)) with
        | some f =>
            { controls := cs2,
              trace := [SubmitAction.preventDefault, SubmitAction.resetSweep,
                SubmitAction.computeValidity, SubmitAction.focusInvalid],
              focused := some f, alerted := false, crashed := false }
        | none =>
            { controls := cs2,
              trace := [SubmitAction.preventDefault, SubmitAction.resetSweep,
                SubmitAction.computeValidity, SubmitAction.focusInvalid],
              focused := none, alerted := false, crashed := true }

/-- Which interaction event #registerEventListener binds for a
control: change for radio, checkbox and select controls, blur for the
rest. -/
inductive TriggerEvent
  | change
  | blur
deriving DecidableEq, Repr

def triggerEventFor (f : Field) : TriggerEvent :=
  if f.typeAttr == "radio" || f.typeAttr == "checkbox" || f.kind = ControlKind.select then
    TriggerEvent.change
  else TriggerEvent.blur

/-- What init() leaves behind: either a console.warn and nothing
registered, or the full set of listeners. -/
structure InitResult where
  warned : Bool
  interactionListeners : List (Field × TriggerEvent)
  invalidListeners : List Field
  submitListenerRegistered : Bool
deriving DecidableEq, Repr

/-- The source's init(): when #formElms is empty, log a console.warn
and return without registering anything; otherwise register the
interaction and invalid listeners on every registered control and the
submit listener on the form. -/
def init (cs : List Field) : InitResult :=
  if (formElms cs).isEmpty then
    { warned := true, interactionListeners := [], invalidListeners := [],
      submitListenerRegistered := false }
  else
    { warned := false,
      interactionListeners := (formElms cs).map (fun f => (f, triggerEventFor f)),
      invalidListeners := formElms cs,
      submitListenerRegistered := true }

/-- Per-field canonical reset-then-custom-check state: what the
control looks like after the submit sweep's reset and, for registered
custom-rule controls, the custom-rule re-evaluation. -/
def afterCustom (f : Field) : Field :=
  if isCustomRuleElm f then checkCustomValidation (resetErrorStatePure f)
  else resetErrorStatePure f

def afterCustomR (f : Field) : Field :=
  if isRegisteredKind f then afterCustom f else f

/-- Per-field result of the whole submit sweep (reset, custom rule
where applicable, native recheck with the invalid listener displaying
the error). Unregistered controls are untouched. -/
def sweepField (f : Field) : Field :=
  if isRegisteredKind f then
    if (afterCustom f).willValidate && !(validityValid (afterCustom f)) then
      handleInvalidPure (afterCustom f)
    else afterCustom f
  else f

/-- The form-level verdict the submit handler computes: every
validation candidate, once reset and re-checked, is valid. -/
def formValidityVerdict (cs : List Field) : Bool :=
  cs.all (fun f => !f.willValidate || validityValid (afterCustomR f))

/-! Normal forms and preservation lemmas for the per-field operations. -/

/-- The custom message #checkCustomValidation leaves on the field. -/
def ccMsg (f : Field) : String :=
  if f.customRuleAttr = some "test" then (if f.value = "0" then "" else f.title)
  else f.customMessage

theorem checkCustomValidation_eq (f : Field) :
    checkCustomValidation f = { f with customMessage := ccMsg f } := by
  unfold checkCustomValidation ccMsg setCustomValidity
  split_ifs <;> simp_all

/-- The custom message #handleInvalid leaves on the field. -/
def hiMsg (f : Field) : String :=
  if f.native.valueMissing then requiredMessage
  else if f.native.typeMismatch then f.customMessage
  else if f.native.patternMismatch then f.title
  else f.customMessage

theorem handleInvalidPure_eq (f : Field) :
    handleInvalidPure f =
      { f with
        customMessage := hiMsg f,
        wrapperError := true,
        slotText := validationMessage { f with customMessage := hiMsg f } } := by
  unfold handleInvalidPure displayErrorStatePure setCustomValidity hiMsg
  split_ifs <;> simp

@[simp] theorem core_setCustomValidity (f : Field) (m : String) :
    (setCustomValidity f m).core = f.core := rfl

@[simp] theorem core_displayErrorStatePure (f : Field) (m : String) :
    (displayErrorStatePure f m).core = f.core := rfl

@[simp] theorem core_resetErrorStatePure (f : Field) :
    (resetErrorStatePure f).core = f.core := rfl

@[simp] theorem core_checkCustomValidation (f : Field) :
    (checkCustomValidation f).core = f.core := by
  rw [checkCustomValidation_eq]; rfl

@[simp] theorem core_handleInvalidPure (f : Field) :
    (handleInvalidPure f).core = f.core := by
  rw [handleInvalidPure_eq]; rfl

@[simp] theorem hasBindings_setCustomValidity (f : Field) (m : String) :
    hasBindings (setCustomValidity f m) = hasBindings f := rfl

@[simp] theorem hasBindings_resetErrorStatePure (f : Field) :
    hasBindings (resetErrorStatePure f) = hasBindings f := rfl

@[simp] theorem hasBindings_displayErrorStatePure (f : Field) (m : String) :
    hasBindings (displayErrorStatePure f m) = hasBindings f := rfl

@[simp] theorem hasBindings_checkCustomValidation (f : Field) :
    hasBindings (checkCustomValidation f) = hasBindings f := by
  rw [checkCustomValidation_eq]; rfl

@[simp] theorem hasBindings_handleInvalidPure (f : Field) :
    hasBindings (handleInvalidPure f) = hasBindings f := by
  rw [handleInvalidPure_eq]; rfl

@[simp] theorem willValidate_resetErrorStatePure (f : Field) :
    (resetErrorStatePure f).willValidate = f.willValidate := rfl

@[simp] theorem willValidate_checkCustomValidation (f : Field) :
    (checkCustomValidation f).willValidate = f.willValidate := by
  rw [checkCustomValidation_eq]

@[simp] theorem willValidate_handleInvalidPure (f : Field) :
    (handleInvalidPure f).willValidate = f.willValidate := by
  rw [handleInvalidPure_eq]

@[simp] theorem native_resetErrorStatePure (f : Field) :
    (resetErrorStatePure f).native = f.native := rfl

@[simp] theorem native_checkCustomValidation (f : Field) :
    (checkCustomValidation f).native = f.native := by
  rw [checkCustomValidation_eq]

@[simp] theorem native_handleInvalidPure (f : Field) :
    (handleInvalidPure f).native = f.native := by
  rw [handleInvalidPure_eq]

@[simp] theorem title_resetErrorStatePure (f : Field) :
    (resetErrorStatePure f).title = f.title := rfl

@[simp] theorem title_handleInvalidPure (f : Field) :
    (handleInvalidPure f).title = f.title := by
  rw [handleInvalidPure_eq]

@[simp] theorem value_resetErrorStatePure (f : Field) :
    (resetErrorStatePure f).value = f.value := rfl

@[simp] theorem nativeMsg_handleInvalidPure (f : Field) :
    (handleInvalidPure f).nativeMsg = f.nativeMsg := by
  rw [handleInvalidPure_eq]

@[simp] theorem isRegisteredKind_resetErrorStatePure (f : Field) :
    isRegisteredKind (resetErrorStatePure f) = isRegisteredKind f := rfl

@[simp] theorem isRegisteredKind_checkCustomValidation (f : Field) :
    isRegisteredKind (checkCustomValidation f) = isRegisteredKind f := by
  rw [checkCustomValidation_eq]; rfl

@[simp] theorem isRegisteredKind_handleInvalidPure (f : Field) :
    isRegisteredKind (handleInvalidPure f) = isRegisteredKind f := by
  rw [handleInvalidPure_eq]; rfl

@[simp] theorem isCustomRuleElm_resetErrorStatePure (f : Field) :
    isCustomRuleElm (resetErrorStatePure f) = isCustomRuleElm f := rfl

@[simp] theorem isCustomRuleElm_checkCustomValidation (f : Field) :
    isCustomRuleElm (checkCustomValidation f) = isCustomRuleElm f := by
  rw [checkCustomValidation_eq]; rfl

@[simp] theorem isCustomRuleElm_handleInvalidPure (f : Field) :
    isCustomRuleElm (handleInvalidPure f) = isCustomRuleElm f := by
  rw [handleInvalidPure_eq]; rfl

theorem resetErrorStatePure_idem (f : Field) :
    resetErrorStatePure (resetErrorStatePure f) = resetErrorStatePure f := rfl

/-! The Except-valued operations reduce to their pure counterparts
whenever the field resolves its display bindings. -/

theorem resetErrorState_ok {f : Field} (h : hasBindings f = true) :
    resetErrorState f = Except.ok (resetErrorStatePure f) := by
  unfold hasBindings at h
  unfold resetErrorState getElms resetErrorStatePure
  simp [h]

theorem displayErrorState_ok {f : Field} (h : hasBindings f = true) (m : String) :
    displayErrorState f m = Except.ok (displayErrorStatePure f m) := by
  unfold hasBindings at h
  unfold displayErrorState getElms displayErrorStatePure
  simp [h]

theorem handleInvalid_ok {f : Field} (h : hasBindings f = true) :
    handleInvalid f = Except.ok (handleInvalidPure f) := by
  unfold handleInvalid handleInvalidPure
  split_ifs <;>
    rw [displayErrorState_ok (by simpa using h)]

theorem ok_bind {alpha beta : Type} (x : alpha) (g : alpha → Except JsError beta) :
    (Except.ok x >>= g : Except JsError beta) = g x := rfl

theorem validateTargetInput_ok {f : Field} (h : hasBindings f = true) :
    validateTargetInput f = Except.ok (validateTargetInputPure f) := by
  unfold validateTargetInput validateTargetInputPure inputCheckValidity
  rw [resetErrorState_ok h]
  simp only [ok_bind]
  split_ifs with hc hv hv
  · exact handleInvalid_ok (by simp [h])
  · rfl
  · exact handleInvalid_ok (by simp [h])
  · rfl

theorem requiredMessage_ne_empty : (requiredMessage == "") = false := by decide

theorem hiMsg_handleInvalidPure (f : Field) :
    hiMsg (handleInvalidPure f) = hiMsg f := by
  rw [handleInvalidPure_eq]
  cases hvm : f.native.valueMissing <;> cases htm : f.native.typeMismatch <;>
    cases hpm : f.native.patternMismatch <;> simp [hiMsg, hvm, htm, hpm]

theorem handleInvalidPure_idem (f : Field) :
    handleInvalidPure (handleInvalidPure f) = handleInvalidPure f := by
  rw [handleInvalidPure_eq (handleInvalidPure f), hiMsg_handleInvalidPure,
    handleInvalidPure_eq f]
  simp [validationMessage]

/-- The invalid handler never turns an invalid control valid: the
native flags are untouched and the custom message it installs is
non-empty whenever the field's own message was. -/
theorem validityValid_handleInvalidPure {f : Field} (h : validityValid f = false) :
    validityValid (handleInvalidPure f) = false := by
  rw [handleInvalidPure_eq]
  unfold validityValid nativeValid at h ⊢
  cases hvm : f.native.valueMissing <;> cases htm : f.native.typeMismatch <;>
    cases hpm : f.native.patternMismatch <;> cases hoi : f.native.otherInvalid <;>
    simp_all [hiMsg, requiredMessage_ne_empty]

/-! The submit sweep, step by step. -/

/-- Pointwise effect of the reset sweep in #handleSubmit. -/
def step2 (f : Field) : Field :=
  if isRegisteredKind f then resetErrorStatePure f else f

/-- Pointwise effect of the custom-rule sweep in #checkValidity. -/
def step3 (f : Field) : Field :=
  if isCustomRuleElm f then validateTargetInputPure f else f

/-- Pointwise effect of the invalid events of form.checkValidity(). -/
def fireStep (f : Field) : Field :=
  if f.willValidate && !(validityValid f) && isRegisteredKind f then handleInvalidPure f
  else f

theorem registered_of_custom {f : Field} (h : isCustomRuleElm f = true) :
    isRegisteredKind f = true := by
  unfold isCustomRuleElm at h
  exact (Bool.and_eq_true _ _ |>.mp h).1

theorem step2_ok {f : Field} (h : hasBindings f = true) :
    (if isRegisteredKind f then resetErrorState f else Except.ok f) = Except.ok (step2 f) := by
  unfold step2
  split_ifs
  · exact resetErrorState_ok h
  · rfl

theorem step3_ok {f : Field} (h : hasBindings f = true) :
    (if isCustomRuleElm f then validateTargetInput f else Except.ok f) = Except.ok (step3 f) := by
  unfold step3
  split_ifs
  · exact validateTargetInput_ok h
  · rfl

theorem fireStep_ok {f : Field} (h : hasBindings f = true) :
    (if f.willValidate && !(validityValid f) && isRegisteredKind f then handleInvalid f
      else Except.ok f) = Except.ok (fireStep f) := by
  unfold fireStep
  split_ifs
  · exact handleInvalid_ok h
  · rfl

theorem mapExcept_ok (g : Field → Except JsError Field) (g' : Field → Field) :
    ∀ l : List Field, (∀ f ∈ l, g f = Except.ok (g' f)) →
      mapExcept g l = Except.ok (l.map g')
  | [], _ => rfl
  | f :: fs, h => by
      unfold mapExcept
      rw [h f (by simp), mapExcept_ok g g' fs (fun x hx => h x (by simp [hx]))]
      rfl

@[simp] theorem hasBindings_validateTargetInputPure (f : Field) :
    hasBindings (validateTargetInputPure f) = hasBindings f := by
  unfold validateTargetInputPure
  split_ifs <;> simp

@[simp] theorem hasBindings_step2 (f : Field) :
    hasBindings (step2 f) = hasBindings f := by
  unfold step2; split_ifs <;> simp

@[simp] theorem hasBindings_step3 (f : Field) :
    hasBindings (step3 f) = hasBindings f := by
  unfold step3; split_ifs <;> simp

@[simp] theorem willValidate_afterCustom (f : Field) :
    (afterCustom f).willValidate = f.willValidate := by
  unfold afterCustom; split_ifs <;> simp

@[simp] theorem isRegisteredKind_afterCustom (f : Field) :
    isRegisteredKind (afterCustom f) = isRegisteredKind f := by
  unfold afterCustom; split_ifs <;> simp

@[simp] theorem isCustomRuleElm_afterCustom (f : Field) :
    isCustomRuleElm (afterCustom f) = isCustomRuleElm f := by
  unfold afterCustom; split_ifs <;> simp

/-- After the reset and custom sweeps, a field is in its
reset-then-custom-check state, displayed or not. -/
theorem step3_step2 (f : Field) :
    step3 (step2 f) =
      if isCustomRuleElm f then
        (if (afterCustom f).willValidate && !(validityValid (afterCustom f)) then
          handleInvalidPure (afterCustom f)
        else afterCustom f)
      else step2 f := by
  by_cases hc : isCustomRuleElm f = true
  · have hr := registered_of_custom hc
    unfold step3 step2
    rw [if_pos hr]
    rw [show isCustomRuleElm (resetErrorStatePure f) = true by simp [hc]]
    rw [if_pos hc]
    unfold validateTargetInputPure afterCustom
    rw [show isCustomRuleElm (resetErrorStatePure f) = true by simp [hc], if_pos hc]
    rfl
  · simp only [Bool.not_eq_true] at hc
    unfold step3
    rw [show isCustomRuleElm (step2 f) = isCustomRuleElm f by unfold step2; split_ifs <;> simp]
    simp [hc]

theorem fire_step3_step2 (f : Field) : fireStep (step3 (step2 f)) = sweepField f := by
  rw [step3_step2]
  by_cases hc : isCustomRuleElm f = true
  · have hr := registered_of_custom hc
    rw [if_pos hc]
    unfold sweepField
    rw [if_pos hr]
    by_cases hv : ((afterCustom f).willValidate && !(validityValid (afterCustom f))) = true
    · rw [if_pos hv]
      have hinv : validityValid (afterCustom f) = false := by
        rcases Bool.and_eq_true _ _ |>.mp hv with ⟨_, h2⟩
        simpa using h2
      have hwv : (afterCustom f).willValidate = true :=
        (Bool.and_eq_true _ _ |>.mp hv).1
      have hwv' : f.willValidate = true := by simpa using hwv
      unfold fireStep
      rw [if_pos (by
        simp [validityValid_handleInvalidPure hinv, hwv', hr])]
      exact handleInvalidPure_idem (afterCustom f)
    · rw [if_neg hv]
      unfold fireStep
      rw [if_neg (by
        intro hcon
        rcases Bool.and_eq_true _ _ |>.mp hcon with ⟨h12, _⟩
        exact hv h12)]
  · simp only [Bool.not_eq_true] at hc
    rw [if_neg (by simp [hc])]
    by_cases hr : isRegisteredKind f = true
    · have ha : afterCustom f = resetErrorStatePure f := by
        unfold afterCustom
        rw [if_neg (by simp [hc])]
      unfold step2 sweepField
      rw [if_pos hr, if_pos hr, ha]
      unfold fireStep
      by_cases hv :
          ((resetErrorStatePure f).willValidate && !(validityValid (resetErrorStatePure f))) = true
      · have hcond : ((resetErrorStatePure f).willValidate
            && !(validityValid (resetErrorStatePure f))
            && isRegisteredKind (resetErrorStatePure f)) = true := by
          simp only [isRegisteredKind_resetErrorStatePure, hr, Bool.and_true]
          exact hv
        rw [if_pos hcond, if_pos hv]
      · have hcond : ¬(((resetErrorStatePure f).willValidate
            && !(validityValid (resetErrorStatePure f))
            && isRegisteredKind (resetErrorStatePure f)) = true) := by
          simp only [isRegisteredKind_resetErrorStatePure, hr, Bool.and_true]
          exact hv
        rw [if_neg hcond, if_neg hv]
    · simp only [Bool.not_eq_true] at hr
      unfold step2 sweepField fireStep
      rw [if_neg (by simp [hr]), if_neg (by simp [hr]), if_neg (by simp [hr])]

theorem flag_pointwise (f : Field) :
    (!(step3 (step2 f)).willValidate || validityValid (step3 (step2 f)))
      = (!f.willValidate || validityValid (afterCustomR f)) := by
  rw [step3_step2]
  by_cases hc : isCustomRuleElm f = true
  · have hr := registered_of_custom hc
    rw [if_pos hc]
    unfold afterCustomR
    rw [if_pos hr]
    by_cases hv : ((afterCustom f).willValidate && !(validityValid (afterCustom f))) = true
    · rw [if_pos hv]
      have hinv : validityValid (afterCustom f) = false := by
        rcases Bool.and_eq_true _ _ |>.mp hv with ⟨_, h2⟩
        simpa using h2
      have hwv : (afterCustom f).willValidate = true :=
        (Bool.and_eq_true _ _ |>.mp hv).1
      have hwv' : f.willValidate = true := by simpa using hwv
      simp [validityValid_handleInvalidPure hinv, hwv', hinv]
    · rw [if_neg hv]
      simp
  · simp only [Bool.not_eq_true] at hc
    rw [if_neg (by simp [hc])]
    unfold step2 afterCustomR afterCustom
    by_cases hr : isRegisteredKind f = true
    · rw [if_pos hr, if_pos hr, if_neg (by simp [hc])]
      simp
    · simp only [Bool.not_eq_true] at hr
      rw [if_neg (by simp [hr]), if_neg (by simp [hr])]

theorem all_congr (l : List Field) (p q : Field → Bool) (h : ∀ f ∈ l, p f = q f) :
    l.all p = l.all q := by
  induction l with
  | nil => rfl
  | cons f fs ih =>
      simp only [List.all_cons]
      rw [h f (by simp), ih (fun x hx => h x (by simp [hx]))]

/-- Every field of the form resolves its display bindings. -/
def allBindings (cs : List Field) : Prop := ∀ f ∈ cs, hasBindings f = true

instance (cs : List Field) : Decidable (allBindings cs) := by
  unfold allBindings; infer_instance

/-- Full characterization of one run of the submit handler when every
field resolves its display bindings: the default action is prevented,
every control ends in its swept state, the verdict is the conjunction
of the candidates' validities after reset-and-recheck, and the handler
then alerts, focuses the first invalid registered control, or crashes
on the undefined result of the find. -/
theorem handleSubmit_spec (cs : List Field) (hb : allBindings cs) :
    handleSubmit cs =
      if formValidityVerdict cs then
        { controls := cs.map sweepField,
          trace := [SubmitAction.preventDefault, SubmitAction.resetSweep,
            SubmitAction.computeValidity, SubmitAction.successAlert],
          focused := none, alerted := true, crashed := false }
      else
        match (formElms (cs.map sweepField)).find? (fun f => !(validityValid f)) with
        | some f =>
            { controls := cs.map sweepField,
              trace := [SubmitAction.preventDefault, SubmitAction.resetSweep,
                SubmitAction.computeValidity, SubmitAction.focusInvalid],
              focused := some f, alerted := false, crashed := false }
        | none =>
            { controls := cs.map sweepField,
              trace := [SubmitAction.preventDefault, SubmitAction.resetSweep,
                SubmitAction.computeValidity, SubmitAction.focusInvalid],
              focused := none, alerted := false, crashed := true } := by
  have h2 : mapExcept (fun f => if isRegisteredKind f then resetErrorState f else Except.ok f) cs
      = Except.ok (cs.map step2) :=
    mapExcept_ok _ step2 cs (fun f hf => step2_ok (hb f hf))
  have hb2 : ∀ f ∈ cs.map step2, hasBindings f = true := by
    intro f hf
    rcases List.mem_map.mp hf with ⟨x, hx, rfl⟩
    simp [hb x hx]
  have h3 : mapExcept (fun f => if isCustomRuleElm f then validateTargetInput f else Except.ok f)
      (cs.map step2) = Except.ok ((cs.map step2).map step3) :=
    mapExcept_ok _ step3 _ (fun f hf => step3_ok (hb2 f hf))
  have hb3 : ∀ f ∈ (cs.map step2).map step3, hasBindings f = true := by
    intro f hf
    rcases List.mem_map.mp hf with ⟨x, hx, rfl⟩
    simp [hb2 x hx]
  have h4 : fireInvalidOnForm ((cs.map step2).map step3)
      = Except.ok (((cs.map step2).map step3).map fireStep) :=
    mapExcept_ok _ fireStep _ (fun f hf => fireStep_ok (hb3 f hf))
  have hmap : ((cs.map step2).map step3).map fireStep = cs.map sweepField := by
    rw [List.map_map, List.map_map]
    exact List.map_congr_left (fun f _ => fire_step3_step2 f)
  have hflag : formCheckValidityFlag ((cs.map step2).map step3) = formValidityVerdict cs := by
    unfold formCheckValidityFlag formValidityVerdict
    rw [List.map_map, List.all_map]
    exact all_congr cs _ _ (fun f _ => flag_pointwise f)
  unfold handleSubmit checkValidityAll
  simp only [h2, h3, ok_bind, h4, hmap, hflag]
@[simp] theorem isRegisteredKind_sweepField (f : Field) :
    isRegisteredKind (sweepField f) = isRegisteredKind f := by
  unfold sweepField; split_ifs <;> simp

/-- The displayed-or-not swept state has the same validity as the
bare reset-then-custom-check state. -/
theorem validityValid_sweepField (f : Field) :
    validityValid (sweepField f) = validityValid (afterCustomR f) := by
  unfold sweepField afterCustomR
  by_cases hr : isRegisteredKind f = true
  · rw [if_pos hr, if_pos hr]
    by_cases hv : ((afterCustom f).willValidate && !(validityValid (afterCustom f))) = true
    · rw [if_pos hv]
      have hinv : validityValid (afterCustom f) = false := by
        rcases Bool.and_eq_true _ _ |>.mp hv with ⟨_, h2⟩
        simpa using h2
      rw [validityValid_handleInvalidPure hinv, hinv]
    · rw [if_neg hv]
  · simp only [Bool.not_eq_true] at hr
    rw [if_neg (by simp [hr]), if_neg (by simp [hr])]

theorem resetPure_congr_core {f g : Field} (h : f.core = g.core) :
    resetErrorStatePure f = resetErrorStatePure g := by
  cases f; cases g
  simp only [Field.core, FieldCore.mk.injEq] at h
  obtain ⟨rfl, rfl, rfl, rfl, rfl, rfl, rfl, rfl, rfl, rfl⟩ := h
  rfl

@[simp] theorem isCustomRuleElm_validateTargetInputPure (f : Field) :
    isCustomRuleElm (validateTargetInputPure f) = isCustomRuleElm f := by
  unfold validateTargetInputPure; split_ifs <;> simp

theorem core_validateTargetInputPure (f : Field) :
    (validateTargetInputPure f).core = f.core := by
  unfold validateTargetInputPure; split_ifs <;> simp

/-- #validateTargetInput only ever reads the components recorded in
FieldCore plus the state its own initial reset canonicalizes, so its
result is determined by the core alone. -/
theorem validateTargetInputPure_congr {f g : Field} (h : f.core = g.core) :
    validateTargetInputPure f = validateTargetInputPure g := by
  have hk : f.kind = g.kind := congrArg FieldCore.kind h
  have hattr : f.customRuleAttr = g.customRuleAttr := congrArg FieldCore.customRuleAttr h
  have hreset := resetPure_congr_core h
  unfold validateTargetInputPure isCustomRuleElm isRegisteredKind
  rw [hk, hattr, hreset]

/-- Re-running #validateTargetInput on its own output changes
nothing: the run starts by resetting exactly the state the previous
run touched. -/
theorem validateTargetInputPure_idem (f : Field) :
    validateTargetInputPure (validateTargetInputPure f) = validateTargetInputPure f :=
  validateTargetInputPure_congr (core_validateTargetInputPure f)

/-- An extra #resetErrorState just before #validateTargetInput is
absorbed by the reset the validation itself starts with. -/
theorem validateTargetInputPure_reset (f : Field) :
    validateTargetInputPure (resetErrorStatePure f) = validateTargetInputPure f :=
  validateTargetInputPure_congr (core_resetErrorStatePure f)

/-- When the swept form is invalid and every invalid candidate is a
registered control, the Array.find in #handleSubmit succeeds. -/
theorem find_some_of_invalid (cs : List Field)
    (hreg : ∀ f ∈ cs, f.willValidate = true → validityValid (afterCustomR f) = false →
      isRegisteredKind f = true)
    (hinv : formValidityVerdict cs = false) :
    ((formElms (cs.map sweepField)).find? (fun f => !(validityValid f))).isSome = true := by
  unfold formValidityVerdict at hinv
  rw [List.all_eq_false] at hinv
  obtain ⟨f, hf, hp⟩ := hinv
  have hwv : f.willValidate = true := by
    by_contra hw
    simp only [Bool.not_eq_true] at hw
    exact hp (by simp [hw])
  have hval : validityValid (afterCustomR f) = false := by
    by_contra hv
    simp only [Bool.not_eq_false] at hv
    exact hp (by simp [hv])
  have hr := hreg f hf hwv hval
  rw [List.find?_isSome]
  refine ⟨sweepField f, ?_, ?_⟩
  · unfold formElms
    rw [List.mem_filter]
    exact ⟨List.mem_map_of_mem sweepField hf, by simp [hr]⟩
  · simp [validityValid_sweepField, hval]

/-! Concrete fields used by the witnesses and counterexamples. -/

/-- A plain registered text input with resolvable display bindings. -/
def baseField : Field :=
  { kind := ControlKind.input, typeAttr := "text", willValidate := true,
    value := "x", title := "the title text", customRuleAttr := none,
    native := ⟨false, false, false, false⟩, nativeMsg := "native message",
    customMessage := "", hasWrapper := true, hasSlot := true,
    wrapperError := false, slotText := "" }

/-- A custom-rule field holding a non-empty, non-accepted value. -/
def customField5 : Field :=
  { baseField with customRuleAttr := some "test", value := "5" }

/-- A custom-rule field holding the empty string. -/
def customFieldEmpty : Field :=
  { baseField with
    customRuleAttr := some "test"
    value := ""
    native := ⟨true, false, false, false⟩ }

/-- A registered field that resolves no wrapper element. -/
def unboundField : Field :=
  { baseField with hasWrapper := false }

/-- A registered, natively invalid (required but empty) field. -/
def requiredEmptyField : Field :=
  { baseField with value := "", native := ⟨true, false, false, false⟩ }

/-- A non-registered validation candidate (e.g. a form-associated
custom element) that is invalid. -/
def otherInvalidField : Field :=
  { baseField with kind := ControlKind.other, native := ⟨false, false, false, true⟩ }

/-! The claims. -/

/-- C1: for every field carrying the custom-rule marker whose value is
non-empty (and whose configured title is a non-empty message), the
custom-rule check clears the custom violation exactly when the value
equals the single accepted literal "0", and any other non-empty value
leaves a custom violation whose message is the field's configured
title text. -/
theorem c1_custom_rule_literal (f : Field)
    (hattr : f.customRuleAttr = some "test") (_hval : f.value ≠ "")
    (htitle : f.title ≠ "") :
    ((checkCustomValidation f).customMessage = "" ↔ f.value = "0")
    ∧ (f.value ≠ "0" → (checkCustomValidation f).customMessage = f.title) := by
  rw [checkCustomValidation_eq]
  unfold ccMsg
  rw [if_pos hattr]
  by_cases h0 : f.value = "0"
  · simp [h0]
  · simp [h0, htitle]

theorem c1_custom_rule_literal_witness :
    customField5.customRuleAttr = some "test" ∧ customField5.value ≠ ""
    ∧ customField5.title ≠ ""
    ∧ (((checkCustomValidation customField5).customMessage = "" ↔ customField5.value = "0")
       ∧ (customField5.value ≠ "0" →
            (checkCustomValidation customField5).customMessage = customField5.title)) :=
  ⟨rfl, by decide, by decide,
    c1_custom_rule_literal customField5 rfl (by decide) (by decide)⟩

/-- C2 counterexample: on a custom-rule field whose value is the empty
string, #checkCustomValidation does set a custom violation (the empty
string is compared against the accepted literal "0" like any other
value), so the empty value is not left to the native required
handling. -/
theorem c2_counterexample :
    customFieldEmpty.customRuleAttr = some "test"
    ∧ customFieldEmpty.value = ""
    ∧ (checkCustomValidation customFieldEmpty).customMessage ≠ "" := by
  refine ⟨rfl, rfl, ?_⟩
  decide

/-- C2 (amended): for every field carrying the custom-rule marker
whose value is the empty string (and whose configured title is
non-empty), the custom-rule check treats the empty string like any
other non-accepted value: it sets a custom violation whose message is
the field's configured title, rather than leaving the empty value to
the native required handling. -/
theorem c2_empty_value_is_custom_violation (f : Field)
    (hattr : f.customRuleAttr = some "test") (hval : f.value = "")
    (htitle : f.title ≠ "") :
    (checkCustomValidation f).customMessage = f.title
    ∧ (checkCustomValidation f).customMessage ≠ "" := by
  rw [checkCustomValidation_eq]
  unfold ccMsg
  rw [if_pos hattr]
  have h0 : ¬ f.value = "0" := by rw [hval]; decide
  simp [h0, htitle]

theorem c2_empty_value_is_custom_violation_witness :
    customFieldEmpty.customRuleAttr = some "test" ∧ customFieldEmpty.value = ""
    ∧ customFieldEmpty.title ≠ ""
    ∧ ((checkCustomValidation customFieldEmpty).customMessage = customFieldEmpty.title
       ∧ (checkCustomValidation customFieldEmpty).customMessage ≠ "") :=
  ⟨rfl, rfl, by decide,
    c2_empty_value_is_custom_violation customFieldEmpty rfl rfl (by decide)⟩

/-- C3: on a field that does not resolve to both a wrapper and an
error-message slot, #getElms logs a console.warn and returns
undefined, but #displayErrorState and #resetErrorState then
destructure that undefined value and THROW a TypeError — they do not
return without effect, and the fault aborts the surrounding submit
sweep (handleSubmit ends crashed, with no success action). The claim's
"never throw" is contradicted; keeping with the source's own JSDoc
(which declares #getElms to return the element pair unconditionally)
and the documented non-fatal intent, this is a code bug. -/
theorem c3_missing_bindings_throw :
    displayErrorState unboundField "message" = Except.error JsError.typeError
    ∧ resetErrorState unboundField = Except.error JsError.typeError
    ∧ (handleSubmit [unboundField]).crashed = true
    ∧ (handleSubmit [unboundField]).alerted = false := by
  refine ⟨rfl, rfl, rfl, rfl⟩

/-- C5: for every invalid field entering the invalid handler with no
stale custom message and a non-empty configured title, the displayed
message follows the fixed precedence: the missing-required-value
message first, then the (native) type-mismatch message, then the
field's configured title for a pattern mismatch, then the native
message of any other violation. Determinism is inherent: the handler
is a function of the field state, so the same invalid state always
yields the same message. -/
theorem c5_message_precedence (f : Field) (hb : hasBindings f = true)
    (hc : f.customMessage = "") (ht : f.title ≠ "") :
    handleInvalid f = Except.ok (handleInvalidPure f)
    ∧ (handleInvalidPure f).slotText =
        (if f.native.valueMissing then requiredMessage
         else if f.native.typeMismatch then f.nativeMsg
         else if f.native.patternMismatch then f.title
         else f.nativeMsg) := by
  refine ⟨handleInvalid_ok hb, ?_⟩
  rw [handleInvalidPure_eq]
  unfold hiMsg validationMessage
  cases hvm : f.native.valueMissing <;> cases htm : f.native.typeMismatch <;>
    cases hpm : f.native.patternMismatch <;>
    simp_all [requiredMessage_ne_empty]

theorem c5_message_precedence_witness :
    hasBindings requiredEmptyField = true
    ∧ requiredEmptyField.customMessage = "" ∧ requiredEmptyField.title ≠ ""
    ∧ (handleInvalid requiredEmptyField = Except.ok (handleInvalidPure requiredEmptyField)
       ∧ (handleInvalidPure requiredEmptyField).slotText =
          (if requiredEmptyField.native.valueMissing then requiredMessage
           else if requiredEmptyField.native.typeMismatch then requiredEmptyField.nativeMsg
           else if requiredEmptyField.native.patternMismatch then requiredEmptyField.title
           else requiredEmptyField.nativeMsg)) :=
  ⟨rfl, rfl, by decide,
    c5_message_precedence requiredEmptyField rfl rfl (by decide)⟩

/-- C6: validation of a single field is idempotent and re-entrant
whenever the field resolves its display bindings: a run reduces to its
pure sweep, re-running the sweep on its own output is the identity
(each run first resets the previously set custom violation and error
display before re-checking), and an extra error-state clear
immediately before validating changes nothing. -/
theorem c6_idempotent_revalidation (f : Field) (hb : hasBindings f = true) :
    validateTargetInput f = Except.ok (validateTargetInputPure f)
    ∧ validateTargetInputPure (validateTargetInputPure f) = validateTargetInputPure f
    ∧ validateTargetInput (resetErrorStatePure f) = validateTargetInput f := by
  refine ⟨validateTargetInput_ok hb, validateTargetInputPure_idem f, ?_⟩
  rw [validateTargetInput_ok (f := resetErrorStatePure f) (by simp [hb]),
    validateTargetInput_ok hb, validateTargetInputPure_reset]

theorem c6_idempotent_revalidation_witness :
    hasBindings customField5 = true
    ∧ (validateTargetInput customField5 = Except.ok (validateTargetInputPure customField5)
       ∧ validateTargetInputPure (validateTargetInputPure customField5)
          = validateTargetInputPure customField5
       ∧ validateTargetInput (resetErrorStatePure customField5)
          = validateTargetInput customField5) :=
  ⟨rfl, c6_idempotent_revalidation customField5 rfl⟩

/-- C9: on a form whose control list has no registered validatable
field, init() logs a console.warn and registers nothing — no
interaction listeners, no invalid listeners, no submit listener — and
returns normally instead of failing. -/
theorem c9_no_validatable_fields (cs : List Field) (h : formElms cs = []) :
    (init cs).warned = true
    ∧ (init cs).interactionListeners = []
    ∧ (init cs).invalidListeners = []
    ∧ (init cs).submitListenerRegistered = false := by
  unfold init
  rw [h]
  simp

theorem c9_no_validatable_fields_witness :
    formElms [otherInvalidField] = []
    ∧ ((init [otherInvalidField]).warned = true
       ∧ (init [otherInvalidField]).interactionListeners = []
       ∧ (init [otherInvalidField]).invalidListeners = []
       ∧ (init [otherInvalidField]).submitListenerRegistered = false) :=
  ⟨rfl, c9_no_validatable_fields [otherInvalidField] rfl⟩

/-- A form with a valid field first and two invalid fields after it. -/
def formW : List Field := [baseField, requiredEmptyField, customFieldEmpty]

/-- A form whose only invalid validation candidate is not of a
registered control kind. -/
def formOther : List Field := [baseField, otherInvalidField]

/-- C4: whenever the submit sweep finds the form invalid (and every
invalid validation candidate is a registered control, so the search
cannot come up empty), the handler does not run the success action,
does not crash, and focuses exactly the first control in document
order whose validity state is invalid after the sweep — the head of
the document-ordered list of invalid registered controls. -/
theorem c4_focus_first_invalid (cs : List Field) (hb : allBindings cs)
    (hreg : ∀ f ∈ cs, f.willValidate = true → validityValid (afterCustomR f) = false →
      isRegisteredKind f = true)
    (hinv : formValidityVerdict cs = false) :
    (handleSubmit cs).alerted = false
    ∧ (handleSubmit cs).crashed = false
    ∧ (handleSubmit cs).focused
        = ((formElms (cs.map sweepField)).filter (fun f => !(validityValid f))).head?
    ∧ ((handleSubmit cs).focused).isSome = true := by
  have hsome := find_some_of_invalid cs hreg hinv
  rw [Option.isSome_iff_exists] at hsome
  obtain ⟨y, hy⟩ := hsome
  rw [handleSubmit_spec cs hb, if_neg (by simp [hinv])]
  rw [hy]
  refine ⟨rfl, rfl, ?_, rfl⟩
  rw [List.filter_head?]
  exact hy.symm

theorem c4_focus_first_invalid_witness :
    allBindings formW
    ∧ (∀ f ∈ formW, f.willValidate = true → validityValid (afterCustomR f) = false →
        isRegisteredKind f = true)
    ∧ formValidityVerdict formW = false
    ∧ ((handleSubmit formW).alerted = false
       ∧ (handleSubmit formW).crashed = false
       ∧ (handleSubmit formW).focused
          = ((formElms (formW.map sweepField)).filter (fun f => !(validityValid f))).head?
       ∧ ((handleSubmit formW).focused).isSome = true) :=
  ⟨by decide, by decide, by decide,
    c4_focus_first_invalid formW (by decide) (by decide) (by decide)⟩

/-- C7: on every dispatched submit event the handler's very first
observable step is e.preventDefault(), with the validity computation
strictly later in the trace, so the default submission never runs;
and the only submission side effect (the success action) fires exactly
when the whole form validates — all-or-nothing. -/
theorem c7_prevent_default_first (cs : List Field) (hb : allBindings cs) :
    (∃ rest, (handleSubmit cs).trace = SubmitAction.preventDefault :: rest
      ∧ SubmitAction.computeValidity ∈ rest)
    ∧ ((handleSubmit cs).alerted = true ↔ formValidityVerdict cs = true) := by
  rw [handleSubmit_spec cs hb]
  by_cases hok : formValidityVerdict cs = true
  · rw [if_pos hok]
    exact ⟨⟨_, rfl, by simp⟩, by simp [hok]⟩
  · rw [if_neg hok]
    cases hfind : (formElms (cs.map sweepField)).find? (fun f => !(validityValid f)) with
    | some f =>
        simp only [hfind]
        exact ⟨⟨_, rfl, by simp⟩, by simp [hok]⟩
    | none =>
        simp only [hfind]
        exact ⟨⟨_, rfl, by simp⟩, by simp [hok]⟩

theorem c7_prevent_default_first_witness :
    allBindings formW
    ∧ ((∃ rest, (handleSubmit formW).trace = SubmitAction.preventDefault :: rest
        ∧ SubmitAction.computeValidity ∈ rest)
       ∧ ((handleSubmit formW).alerted = true ↔ formValidityVerdict formW = true)) :=
  ⟨by decide, c7_prevent_default_first formW (by decide)⟩

/-- C8: the submit sweep drives every registered control — custom-rule
or not — through the same reset-then-recheck transition (sweepField:
error state cleared, custom rule re-evaluated where the marker is
present, native check re-run with the invalid listener displaying the
error), leaves unregistered controls untouched, and the form-level
verdict is the conjunction of the validities of all validation
candidates after that transition. -/
theorem c8_full_sweep (cs : List Field) (hb : allBindings cs) :
    (handleSubmit cs).controls = cs.map sweepField
    ∧ ((handleSubmit cs).alerted = true ↔
        ∀ f ∈ cs, f.willValidate = true → validityValid (afterCustomR f) = true) := by
  have hv : formValidityVerdict cs = true ↔
      ∀ f ∈ cs, f.willValidate = true → validityValid (afterCustomR f) = true := by
    unfold formValidityVerdict
    rw [List.all_eq_true]
    constructor
    · intro h f hf hw
      have h2 := h f hf
      simpa [hw] using h2
    · intro h f hf
      by_cases hw : f.willValidate = true
      · simp [h f hf hw]
      · simp only [Bool.not_eq_true] at hw
        simp [hw]
  rw [handleSubmit_spec cs hb]
  by_cases hok : formValidityVerdict cs = true
  · rw [if_pos hok]
    exact ⟨rfl, by rw [← hv]; simp [hok]⟩
  · rw [if_neg hok]
    cases hfind : (formElms (cs.map sweepField)).find? (fun f => !(validityValid f)) with
    | some f =>
        exact ⟨rfl, by rw [← hv]; simp [hok]⟩
    | none =>
        exact ⟨rfl, by rw [← hv]; simp [hok]⟩

theorem c8_full_sweep_witness :
    allBindings formW
    ∧ ((handleSubmit formW).controls = formW.map sweepField
       ∧ ((handleSubmit formW).alerted = true ↔
          ∀ f ∈ formW, f.willValidate = true → validityValid (afterCustomR f) = true)) :=
  ⟨by decide, c8_full_sweep formW (by decide)⟩

/-- C10: the unconditional firstInvalidInput.focus() in #handleSubmit
is safe exactly under the precondition the claim states: when every
validation candidate that is invalid after the sweep is a registered
input/select/textarea, the Array.find succeeds and the handler does
not crash; but on a form made invalid solely by an unregistered
control kind, the find comes up empty (focused = none) and the
dereference throws (crashed = true). -/
theorem c10_focus_dereference (cs : List Field) (hb : allBindings cs) :
    ((∀ f ∈ cs, f.willValidate = true → validityValid (afterCustomR f) = false →
        isRegisteredKind f = true) → (handleSubmit cs).crashed = false)
    ∧ ((formValidityVerdict cs = false
        ∧ ∀ f ∈ cs, isRegisteredKind f = true → validityValid (afterCustomR f) = true) →
        ((handleSubmit cs).crashed = true ∧ (handleSubmit cs).focused = none)) := by
  constructor
  · intro hreg
    rw [handleSubmit_spec cs hb]
    by_cases hok : formValidityVerdict cs = true
    · rw [if_pos hok]
    · rw [if_neg hok]
      have hinv : formValidityVerdict cs = false := by
        cases h : formValidityVerdict cs
        · rfl
        · exact absurd h hok
      have hsome := find_some_of_invalid cs hreg hinv
      obtain ⟨y, hy⟩ := Option.isSome_iff_exists.mp hsome
      simp only [hy]
  · rintro ⟨hinv, hvalid⟩
    rw [handleSubmit_spec cs hb, if_neg (by simp [hinv])]
    have hnone : (formElms (cs.map sweepField)).find? (fun f => !(validityValid f)) = none := by
      rw [List.find?_eq_none]
      intro g hg
      unfold formElms at hg
      rw [List.mem_filter] at hg
      obtain ⟨hgmem, hgreg⟩ := hg
      rcases List.mem_map.mp hgmem with ⟨f, hf, rfl⟩
      have hr : isRegisteredKind f = true := by simpa using hgreg
      have hval := hvalid f hf hr
      simp [validityValid_sweepField, hval]
    rw [hnone]
    exact ⟨rfl, rfl⟩

theorem c10_focus_dereference_witness :
    allBindings formOther
    ∧ (((∀ f ∈ formOther, f.willValidate = true →
          validityValid (afterCustomR f) = false → isRegisteredKind f = true) →
          (handleSubmit formOther).crashed = false)
       ∧ ((formValidityVerdict formOther = false
          ∧ ∀ f ∈ formOther, isRegisteredKind f = true →
              validityValid (afterCustomR f) = true) →
          ((handleSubmit formOther).crashed = true
           ∧ (handleSubmit formOther).focused = none))) :=
  ⟨by decide, c10_focus_dereference formOther (by decide)⟩

end VanillaValidation
